import Mathlib

/-
Verification of the entity-simulation core of vegetable-funeral (src/main.rs)
against its natural-language specification.  The Rust systems are shallowly
embedded: positions are exact rationals (with an explicit not-a-number case
where IEEE NaN matters), entity handles are naturals, and each Bevy system
becomes a pure function on the state it reads and writes.  A result of none
models a panic of the Rust code.
-/

namespace VegFuneral

/-- Abstraction of an f32 value as the aim logic sees it: either a finite value
(modelled exactly as a rational, f32 rounding is not modelled) or the IEEE
not-a-number value, which operations such as normalizing a zero-length vector
can produce. -/
inductive F where
  | nan : F
  | val : ℚ → F
deriving DecidableEq, Inhabited

/-- f32::abs on finite values: the absolute value, written as an executable
definition (it agrees with the Mathlib absolute value, theorem fabs_eq_abs). -/
def fabs (q : ℚ) : ℚ := if q < 0 then -q else q

/-- Test for the not-a-number case. -/
def F.isNaN : F → Bool
  | .nan => true
  | .val _ => false

/-- f32 comparison as used at src/main.rs line 329 (partial_cmp): it returns an
Ordering exactly when neither operand is NaN; a NaN operand compares unordered
and the result is none. -/
def F.pcmp : F → F → Option Ordering
  | .val a, .val b => some (if a < b then .lt else if a = b then .eq else .gt)
  | _, _ => none

/-- Boolean order used to build the sorted aim order of the model.  On finite
values it agrees with the unwrapped pcmp; the sort is only ever performed when
every comparison it makes is defined (otherwise the unwrap panics first). -/
def F.leb : F → F → Bool
  | .val a, .val b => decide (a ≤ b)
  | _, _ => false

/-- An element of the aim query: an enemy id together with the lateral (x)
component of its translation, the only transform field player_aim reads. -/
abbrev AimEnemy := ℕ × F

/-- Order on aim-query entries by lateral position. -/
def aimLe (p q : AimEnemy) : Prop := F.leb p.2 q.2 = true

instance : DecidableRel aimLe := fun p q => instDecidableEqBool (F.leb p.2 q.2) true

/-- The two fields of the Game resource that player_aim reads and writes
(src/main.rs lines 47-48): the current target and the debounce latch
(named is_aiming in the source). -/
structure AimState where
  aiming_at : Option ℕ
  is_aiming : Bool
deriving DecidableEq

/-- AimDirection from src/main.rs lines 287-290. -/
inductive AimDirection where
  | Left : AimDirection
  | Right : AimDirection
deriving DecidableEq

/-- Dead zone of the aim stick, src/main.rs line 307. -/
def deadZone : ℚ := mkRat 1 10

/-- Sort of the collected enemy list, src/main.rs lines 328-329: sort_by
comparing translation.x with partial_cmp followed by unwrap.  The standard
stable slice sort compares adjacent elements whenever the slice has at least
two, so the unwrap panics - modelled as none - exactly when some adjacent
comparison is undefined, that is when an operand is NaN and the list has
length at least two.  When every comparison is defined the result is the
stable sort by lateral position, modelled by the stable insertion sort. -/
def aimSort (l : List AimEnemy) : Option (List AimEnemy) :=
  if (l.zip l.tail).any (fun p => (F.pcmp p.1.2 p.2.2).isNone) then none
  else some (List.insertionSort aimLe l)

/-- Two's-complement wrap of an integer into i32 range: the effect of a Rust
as i32 cast and of wrapping i32 addition. -/
def asI32 (n : ℤ) : ℤ := (n + 2 ^ 31) % 2 ^ 32 - 2 ^ 31

/-- Reinterpretation of an i32 value as a 64-bit usize (sign extension, then
reduction modulo 2^64): the effect of a Rust as usize cast. -/
def asUsize (n : ℤ) : ℕ := (n % 2 ^ 64).toNat

/-- Body of player_aim from line 322 on (src/main.rs), reached on a trigger -
the stick is past the dead zone and the latch was clear - after the latch has
been set and the aim direction determined from the sign of the axis: collect
and sort the enemies, then pick or cycle the target.  A result of none models
a panic (the sort unwrap, or an out-of-bounds index).  The index arithmetic of
line 360 - (index as i32 + index_increment) as usize, then modulo the list
length - is embedded through asI32 and asUsize. -/
def player_aim_trigger (aim_direction : AimDirection) (enemies : List AimEnemy)
    (g1 : AimState) : Option AimState :=
  if enemies.isEmpty then some g1
  else
    match aimSort enemies with
    | none => none
    | some ordered =>
      match g1.aiming_at with
      | none =>
        let enemy : ℕ :=
          match aim_direction with
          | .Left => (ordered.head!).1
          | .Right => (ordered.getLast!).1
        some { g1 with aiming_at := some enemy }
      | some enemy =>
        match ordered.findIdx? (fun p => p.1 == enemy) with
        | none => some { g1 with aiming_at := none }
        | some index =>
          let stop : Bool :=
            match aim_direction with
            | .Left => index = 0
            | .Right => index = ordered.length - 1
          if stop then some g1
          else
            let index_increment : ℤ :=
              match aim_direction with
              | .Left => -1
              | .Right => 1
            let next_enemy_index : ℕ :=
              asUsize (asI32 (asI32 (index : ℤ) + index_increment)) %
                ordered.length
            match ordered.get? next_enemy_index with
            | none => none
            | some p => some { g1 with aiming_at := some p.1 }

/-- Shallow embedding of player_aim, src/main.rs lines 292-362.  Inputs: the
right-stick x axis value and the snapshot of live enemies (id and lateral
position); the gamepad is assumed present (its absence skips the body).
Below the dead zone the latch is cleared and nothing else happens; while the
latch is set nothing happens; otherwise the latch is set, the direction is
the sign of the axis, and the trigger body runs. -/
def player_aim (right_stick_x : ℚ) (enemies : List AimEnemy) (g : AimState) :
    Option AimState :=
  if fabs right_stick_x < deadZone then some { g with is_aiming := false }
  else if g.is_aiming then some g
  else
    player_aim_trigger (if right_stick_x > 0 then .Right else .Left) enemies
      { g with is_aiming := true }

/-- Iterated ticks of player_aim: the per-tick input is the axis value and the
snapshot of live enemies for that tick; a panic on any tick (none) aborts the
run. -/
def player_aim_run (g : AimState) : List (ℚ × List AimEnemy) → Option AimState
  | [] => some g
  | t :: ts => (player_aim t.1 t.2 g).bind (fun g1 => player_aim_run g1 ts)

/-! Collision resolution (projectile_hit, src/main.rs lines 188-205).
Positions are exact 3-vectors of rationals. -/

/-- A 3-d position as used by the collision test (exact rationals). -/
structure Vec3 where
  x : ℚ
  y : ℚ
  z : ℚ
deriving DecidableEq

/-- Componentwise difference of positions. -/
def Vec3.sub (a b : Vec3) : Vec3 := ⟨a.x - b.x, a.y - b.y, a.z - b.z⟩

/-- Squared Euclidean norm of a vector. -/
def Vec3.normSq (v : Vec3) : ℚ := v.x * v.x + v.y * v.y + v.z * v.z

/-- HIT_THRESHOLD, src/main.rs line 10. -/
def HIT_THRESHOLD : ℚ := mkRat 1 10

/-- Hit test of src/main.rs lines 196-197: distance = (p - e).length().abs(),
then distance <= HIT_THRESHOLD.  The length is the nonnegative Euclidean norm
(its abs is the identity), so the test is equivalent to comparing the squared
norm against the squared threshold - theorem hit_iff_dist_le below states the
equivalence with the sqrt form; the squared form keeps the test decidable. -/
def hit (p e : Vec3) : Bool := decide ((Vec3.sub p e).normSq ≤ HIT_THRESHOLD * HIT_THRESHOLD)

/-- Effect on (aiming_at, despawned projectile ids, despawned enemy ids) of the
inner for loop of projectile_hit (src/main.rs lines 195-203) for one projectile
against every enemy in the query snapshot: on each hit the target is cleared if
it is the hit enemy, and despawn commands are recorded for both entities.
Command application is deferred in Bevy, so the iterated snapshot lists never
change during the loops. -/
def hit_inner (p : ℕ × Vec3) (enemies : List (ℕ × Vec3)) :
    Option ℕ × List ℕ × List ℕ → Option ℕ × List ℕ × List ℕ := fun acc =>
  enemies.foldl (fun acc e =>
    if hit p.2 e.2 then
      ((if acc.1 = some e.1 then none else acc.1),
        acc.2.1 ++ [p.1], acc.2.2 ++ [e.1])
    else acc) acc

/-- Shallow embedding of projectile_hit (src/main.rs lines 188-205): the outer
for loop over the projectile snapshot.  Result: the final aiming_at and the
lists of despawn commands issued for projectiles and for enemies. -/
def projectile_hit (aiming_at : Option ℕ) (projectiles enemies : List (ℕ × Vec3)) :
    Option ℕ × List ℕ × List ℕ :=
  projectiles.foldl (fun acc p => hit_inner p enemies acc) (aiming_at, [], [])

/-! Movement-direction normalization (enemy_movement lines 238-249 and
weapon_fire lines 251-285).  Positions here are exact reals so that the
Euclidean length is available; only the zero-length degeneracy matters for the
claims, no claim depends on the numeric value of a nonzero unit vector. -/

/-- ENEMY_SPEED, src/main.rs line 8. -/
noncomputable def ENEMY_SPEED : ℝ := (mkRat 1 100 : ℚ)

/-- A 3-d position over the exact reals (f32 rounding is not modelled). -/
structure Vec3R where
  x : ℝ
  y : ℝ
  z : ℝ

/-- Componentwise difference. -/
noncomputable def Vec3R.sub (a b : Vec3R) : Vec3R := ⟨a.x - b.x, a.y - b.y, a.z - b.z⟩

/-- Componentwise sum. -/
noncomputable def Vec3R.add (a b : Vec3R) : Vec3R := ⟨a.x + b.x, a.y + b.y, a.z + b.z⟩

/-- Scalar multiple. -/
noncomputable def Vec3R.smul (c : ℝ) (v : Vec3R) : Vec3R := ⟨c * v.x, c * v.y, c * v.z⟩

/-- Euclidean length. -/
noncomputable def Vec3R.length (v : Vec3R) : ℝ :=
  Real.sqrt (v.x * v.x + v.y * v.y + v.z * v.z)

/-- glam Vec3::normalize as called by the source: the vector divided by its
Euclidean length, with no zero-length guard at either call site
(src/main.rs line 246 and line 272).  For the zero vector IEEE arithmetic
produces 0/0 = NaN in every component; the model tracks NaN contamination as
none.  The branch below is the NaN detector of the model, not a guard present
in the code. -/
noncomputable def normalizeV (v : Vec3R) : Option Vec3R :=
  if v.x = 0 ∧ v.y = 0 ∧ v.z = 0 then none
  else some (Vec3R.smul (1 / v.length) v)

/-- One enemy position update from enemy_movement (src/main.rs lines 243-248):
to_player = (player_position - enemy_position).normalize() * ENEMY_SPEED, then
enemy_position += to_player.  A NaN direction contaminates the stored position
(result none). -/
noncomputable def enemy_movement_step (player_position enemy_position : Vec3R) :
    Option Vec3R :=
  (normalizeV (Vec3R.sub player_position enemy_position)).map
    (fun d => Vec3R.add enemy_position (Vec3R.smul ENEMY_SPEED d))

/-- Heading computation of weapon_fire (src/main.rs lines 269-272):
heading = (target - origin).normalize(), stored in the spawned Projectile.
A NaN heading (coincident target and origin) is result none. -/
noncomputable def weapon_fire_heading (origin target : Vec3R) : Option Vec3R :=
  normalizeV (Vec3R.sub target origin)

/-! Startup (setup_models, src/main.rs lines 92-127). -/

/-- The handle fields of the Game resource touched by setup_models. -/
structure SetupGame where
  player : ℕ
  spud_gun : ℕ
  camera : ℕ
  environment : ℕ
deriving DecidableEq

/-- Default impl of Game (src/main.rs lines 70-83): sentinel handles
from_bits 0..3 for player, spud_gun, environment and camera, written before
any startup system runs. -/
def gameDefault : SetupGame :=
  { player := 0, spud_gun := 1, environment := 2, camera := 3 }

/-- The slice of the Bevy world that setup_models touches: a fresh-entity
counter and the records of marker insertions and child attachments. -/
structure World where
  nextId : ℕ
  playerMarked : List ℕ
  weaponMarked : List ℕ
  children : List (ℕ × ℕ)
deriving DecidableEq

/-- commands.spawn: allocates a fresh entity id. -/
def World.spawn (w : World) : ℕ × World :=
  (w.nextId, { w with nextId := w.nextId + 1 })

/-- Shallow embedding of setup_models (src/main.rs lines 92-127), in source
order: spawn the spud gun scene and store its handle in game.spud_gun; insert
the Weapon marker on the entity currently stored in game.player - the source
line 103 inserts on game.player, which still holds the pre-setup sentinel,
not on game.spud_gun; spawn the environment scene; spawn the player scene with
game.spud_gun attached as child and store its handle in game.player; insert
the Player marker on the (now overwritten) game.player. -/
def setup_models (g : SetupGame) (w : World) : SetupGame × World :=
  let s1 := w.spawn
  let g1 := { g with spud_gun := s1.1 }
  let w2 := { s1.2 with weaponMarked := s1.2.weaponMarked ++ [g1.player] }
  let s2 := w2.spawn
  let g2 := { g1 with environment := s2.1 }
  let s3 := s2.2.spawn
  let w4 := { s3.2 with children := s3.2.children ++ [(s3.1, g2.spud_gun)] }
  let g3 := { g2 with player := s3.1 }
  let w5 := { w4 with playerMarked := w4.playerMarked ++ [g3.player] }
  (g3, w5)

/-- A concrete startup run from the default Game resource, with the fresh
entity counter at 4 (the four sentinel handles 0..3 are taken). -/
def setupRun : SetupGame × World :=
  setup_models gameDefault
    { nextId := 4, playerMarked := [], weaponMarked := [], children := [] }

/-! Enemy spawning (spawn_enemy, src/main.rs lines 208-236, and the
EnemySpawnTimer resource from main, lines 22-25). -/

/-- A repeating Bevy Timer: accumulated elapsed time and the period. -/
structure RTimer where
  elapsed : ℚ
  duration : ℚ
deriving DecidableEq

/-- Timer::tick for a repeating timer: add the delta to the elapsed time;
the timer is finished on this tick when the accumulated elapsed time reaches
the duration, and in that case the elapsed time wraps modulo the duration
(the timer restarts for the next period). -/
def RTimer.tick (t : RTimer) (delta : ℚ) : RTimer × Bool :=
  let e := t.elapsed + delta
  if t.duration ≤ e then
    ({ t with elapsed := e - t.duration * ⌊e / t.duration⌋ }, true)
  else
    ({ t with elapsed := e }, false)

/-- The period of the EnemySpawnTimer resource (main, lines 22-25): a
repeating 3-second timer. -/
def enemySpawnPeriod : ℚ := 3

/-- The translation of a spawned enemy. -/
structure EnemySpawn where
  x : ℚ
  y : ℚ
  z : ℚ
deriving DecidableEq

/-- Shallow embedding of spawn_enemy (src/main.rs lines 208-236): tick the
timer by the frame delta and return early when it did not finish; otherwise
spawn exactly one enemy at x = rand * 4 - 2 (rand is rand::random in [0,1)),
y = 0, z = camera_z - 10. -/
def spawn_enemy (timer : RTimer) (delta rand camera_z : ℚ) :
    RTimer × List EnemySpawn :=
  let r := timer.tick delta
  if r.2 then
    (r.1, [{ x := rand * 4 - 2, y := 0, z := camera_z - 10 }])
  else
    (r.1, [])

/-!
Theorems.  The first group is general-purpose lemmas about the embedding; the
claim theorems follow, one per claim.
-/

theorem fabs_eq_abs (q : ℚ) : fabs q = |q| := by
  unfold fabs
  rcases lt_or_le q 0 with h | h
  · rw [if_pos h, abs_of_neg h]
  · rw [if_neg (not_lt.mpr h), abs_of_nonneg h]

example : player_aim (mkRat 1 2) [(1, F.val 0), (2, F.val (-1)), (3, F.val 2)]
    { aiming_at := none, is_aiming := false } =
    some { aiming_at := some 3, is_aiming := true } := by decide

example : player_aim (mkRat 1 2) [(1, F.val 0), (2, F.val (-1)), (3, F.val 2)]
    { aiming_at := some 1, is_aiming := false } =
    some { aiming_at := some 3, is_aiming := true } := by decide

example : player_aim (mkRat (-1) 2) [(1, F.val 0), (2, F.val (-1)), (3, F.val 2)]
    { aiming_at := some 2, is_aiming := false } =
    some { aiming_at := some 2, is_aiming := true } := by decide

example : player_aim (mkRat 1 2) [(1, F.nan)]
    { aiming_at := none, is_aiming := false } =
    some { aiming_at := some 1, is_aiming := true } := by decide

example : player_aim (mkRat 1 2) [(1, F.nan), (2, F.val 0)]
    { aiming_at := none, is_aiming := false } = none := by decide

theorem F.pcmp_nan_left (x : F) : F.pcmp .nan x = none := by
  cases x <;> rfl

theorem F.pcmp_nan_right (x : F) : F.pcmp x .nan = none := by
  cases x <;> rfl

theorem F.pcmp_isSome_of_not_nan {x y : F} (hx : x.isNaN = false)
    (hy : y.isNaN = false) : (F.pcmp x y).isSome = true := by
  cases x with
  | nan => simp [F.isNaN] at hx
  | val a =>
    cases y with
    | nan => simp [F.isNaN] at hy
    | val b => rfl

theorem aimSort_eq_insertionSort {l ordered : List AimEnemy}
    (h : aimSort l = some ordered) : ordered = List.insertionSort aimLe l := by
  unfold aimSort at h
  split at h
  · exact absurd h (by simp)
  · exact (Option.some.injEq _ _ ▸ h).symm

theorem aimSort_perm {l ordered : List AimEnemy}
    (h : aimSort l = some ordered) : ordered.Perm l := by
  rw [aimSort_eq_insertionSort h]
  exact List.perm_insertionSort aimLe l

theorem aimSort_ne_nil {l ordered : List AimEnemy}
    (h : aimSort l = some ordered) (hne : l ≠ []) : ordered ≠ [] := by
  intro hnil
  apply hne
  have := (aimSort_perm h).length_eq
  rw [hnil] at this
  exact List.length_eq_zero.mp this.symm

theorem player_aim_below {a : ℚ} {es : List AimEnemy} {g : AimState}
    (ht : fabs a < deadZone) :
    player_aim a es g = some { g with is_aiming := false } := by
  unfold player_aim
  rw [if_pos ht]

theorem player_aim_latched {a : ℚ} {es : List AimEnemy} {g : AimState}
    (ht : deadZone ≤ fabs a) (hl : g.is_aiming = true) :
    player_aim a es g = some g := by
  unfold player_aim
  rw [if_neg (not_lt.mpr ht), hl, if_pos rfl]

theorem player_aim_trigger_latch {d : AimDirection} {es : List AimEnemy}
    {g1 g2 : AimState} (h : player_aim_trigger d es g1 = some g2) :
    g2.is_aiming = g1.is_aiming := by
  unfold player_aim_trigger at h
  split at h
  · cases h
    rfl
  · split at h
    · cases h
    · split at h
      · cases h
        rfl
      · split at h
        · cases h
          rfl
        · cases d
          · dsimp only at h
            split at h
            · cases h
              rfl
            · split at h
              · cases h
              · cases h
                rfl
          · dsimp only at h
            split at h
            · cases h
              rfl
            · split at h
              · cases h
              · cases h
                rfl

theorem player_aim_latch {a : ℚ} {es : List AimEnemy} {g g1 : AimState}
    (ht : deadZone ≤ fabs a) (h : player_aim a es g = some g1) :
    g1.is_aiming = true := by
  unfold player_aim at h
  rw [if_neg (not_lt.mpr ht)] at h
  split at h
  · cases h
    assumption
  · exact player_aim_trigger_latch h

theorem player_aim_run_cons (g : AimState) (t : ℚ × List AimEnemy)
    (ts : List (ℚ × List AimEnemy)) :
    player_aim_run g (t :: ts) =
      (player_aim t.1 t.2 g).bind (fun g1 => player_aim_run g1 ts) := rfl

theorem player_aim_run_latched {g : AimState} {ts : List (ℚ × List AimEnemy)}
    (hl : g.is_aiming = true) (hall : ∀ u ∈ ts, deadZone ≤ fabs u.1) :
    player_aim_run g ts = some g := by
  induction ts with
  | nil => rfl
  | cons t ts ih =>
    rw [player_aim_run_cons,
      player_aim_latched (hall t (List.mem_cons_self t ts)) hl,
      Option.some_bind]
    exact ih (fun u hu => hall u (List.mem_cons_of_mem t hu))

theorem F.eq_nan_of_isNaN {x : F} (h : x.isNaN = true) : x = .nan := by
  cases x
  · rfl
  · simp [F.isNaN] at h

/-- C3: debounce.  Over a run of consecutive ticks on which the aim-stick
magnitude stays at least the dead zone 0.1, aiming_at is changed at most once:
if the first tick of the run produces state g1 then the latch is set in g1 and
the whole run produces exactly g1, every later tick leaving the state
untouched.  And a tick below the dead zone clears the latch and changes
nothing else - in particular it does not touch aiming_at. -/
theorem aim_debounce_once (g : AimState) (t : ℚ × List AimEnemy)
    (ts : List (ℚ × List AimEnemy))
    (hall : ∀ u ∈ t :: ts, deadZone ≤ fabs u.1) :
    (∀ g1, player_aim t.1 t.2 g = some g1 →
      g1.is_aiming = true ∧ player_aim_run g (t :: ts) = some g1) ∧
    (∀ (a : ℚ) (es : List AimEnemy) (g0 : AimState), fabs a < deadZone →
      player_aim a es g0 = some { g0 with is_aiming := false }) := by
  constructor
  · intro g1 h1
    have hlatch := player_aim_latch (hall t (List.mem_cons_self t ts)) h1
    refine ⟨hlatch, ?_⟩
    rw [player_aim_run_cons, h1, Option.some_bind]
    exact player_aim_run_latched hlatch
      (fun u hu => hall u (List.mem_cons_of_mem t hu))
  · intro a es g0 hlt
    exact player_aim_below hlt

/-- Witness for aim_debounce_once: holding the stick at 0.5 for three ticks
with one enemy alive selects it on the first tick and leaves the state
unchanged on the remaining ticks. -/
theorem aim_debounce_once_witness :
    player_aim_run { aiming_at := none, is_aiming := false }
      [(mkRat 1 2, [(1, F.val 0)]), (mkRat 1 2, [(1, F.val 0)]),
        (mkRat 1 2, [(1, F.val 0)])] =
      some { aiming_at := some 1, is_aiming := true } :=
  ((aim_debounce_once { aiming_at := none, is_aiming := false }
      (mkRat 1 2, [(1, F.val 0)])
      [(mkRat 1 2, [(1, F.val 0)]), (mkRat 1 2, [(1, F.val 0)])]
      (by decide)).1
    { aiming_at := some 1, is_aiming := true } (by decide)).2

/-- C9 counterexample: a trigger with a stale target (aiming_at = some 7, and
no enemy with id 7 is live because no enemy at all is live) does not clear
aiming_at: the cycler returns at the empty-list check of line 324 before the
defensive stale-target branch is reached, leaving the stale handle in place. -/
theorem aim_stale_empty_counterexample :
    player_aim (mkRat 1 2) [] { aiming_at := some 7, is_aiming := false } =
      some { aiming_at := some 7, is_aiming := true } ∧
    (some 7 : Option ℕ) ≠ none :=
  ⟨by decide, by decide⟩

/-- C9 (amended): on a trigger with aiming_at = some e, at least one live
enemy, and e not among the live enemies, the cycler clears aiming_at to none
(and sets the latch, as on every trigger), selecting no new target. -/
theorem aim_stale_target_cleared (a : ℚ) (enemies : List AimEnemy)
    (g : AimState) (e : ℕ) (ht : deadZone ≤ fabs a) (hl : g.is_aiming = false)
    (haim : g.aiming_at = some e) (hne : enemies ≠ [])
    (hnot : ∀ p ∈ enemies, p.1 ≠ e)
    (ordered : List AimEnemy) (hsort : aimSort enemies = some ordered) :
    player_aim a enemies g = some { aiming_at := none, is_aiming := true } := by
  have hlp : ¬ (g.is_aiming = true) := by
    rw [hl]
    exact Bool.false_ne_true
  unfold player_aim
  rw [if_neg (not_lt.mpr ht), if_neg hlp]
  unfold player_aim_trigger
  rw [if_neg (by simp only [List.isEmpty_iff]; exact hne), hsort]
  dsimp only
  rw [haim]
  dsimp only
  have hfind : List.findIdx? (fun p => p.1 == e) ordered = none := by
    rw [List.findIdx?_eq_none_iff]
    intro x hx
    exact beq_eq_false_iff_ne.mpr (hnot x ((aimSort_perm hsort).mem_iff.mp hx))
  rw [hfind]

/-- Witness for aim_stale_target_cleared: one live enemy with id 3, stale
target id 7: the trigger clears the target. -/
theorem aim_stale_target_cleared_witness :
    player_aim (mkRat 1 2) [(3, F.val 1)]
      { aiming_at := some 7, is_aiming := false } =
      some { aiming_at := none, is_aiming := true } :=
  aim_stale_target_cleared (mkRat 1 2) [(3, F.val 1)]
    { aiming_at := some 7, is_aiming := false } 7 (by decide) rfl rfl
    (by decide) (by decide) [(3, F.val 1)] (by decide)

/-- C2: initial pick.  On a trigger with no current target: with no live
enemy the state is unchanged apart from the latch (aiming_at stays none);
with live enemies present and the aim order sorted successfully, deflection
left picks the first enemy of the aim order (the leftmost) and deflection
right picks the last (the rightmost). -/
theorem aim_initial_pick (a : ℚ) (enemies : List AimEnemy) (g : AimState)
    (ht : deadZone ≤ fabs a) (hl : g.is_aiming = false)
    (haim : g.aiming_at = none) :
    (enemies = [] →
      player_aim a enemies g = some { aiming_at := none, is_aiming := true }) ∧
    (∀ ordered, enemies ≠ [] → aimSort enemies = some ordered →
      (a < 0 → player_aim a enemies g =
        some { aiming_at := some (ordered.head!).1, is_aiming := true }) ∧
      (0 < a → player_aim a enemies g =
        some { aiming_at := some (ordered.getLast!).1, is_aiming := true })) := by
  have hlp : ¬ (g.is_aiming = true) := by
    rw [hl]
    exact Bool.false_ne_true
  constructor
  · intro he
    subst he
    unfold player_aim
    rw [if_neg (not_lt.mpr ht), if_neg hlp,
      show ({ g with is_aiming := true } : AimState) =
        { aiming_at := none, is_aiming := true } from by rw [← haim]]
    rfl
  · intro ordered hne hsort
    constructor
    · intro hneg
      unfold player_aim
      rw [if_neg (not_lt.mpr ht), if_neg hlp, if_neg (asymm hneg)]
      unfold player_aim_trigger
      rw [if_neg (by simp only [List.isEmpty_iff]; exact hne), hsort]
      dsimp only
      rw [haim]
    · intro hpos
      unfold player_aim
      rw [if_neg (not_lt.mpr ht), if_neg hlp, if_pos hpos]
      unfold player_aim_trigger
      rw [if_neg (by simp only [List.isEmpty_iff]; exact hne), hsort]
      dsimp only
      rw [haim]

/-- Witness for aim_initial_pick: three enemies at lateral positions -1, 0, 2
(Scenario A of the spec), no current target, stick deflected right: the
rightmost enemy (id 3, at x = 2) is selected. -/
theorem aim_initial_pick_witness :
    player_aim (mkRat 1 2) [(1, F.val 0), (2, F.val (-1)), (3, F.val 2)]
      { aiming_at := none, is_aiming := false } =
      some { aiming_at := some 3, is_aiming := true } :=
  ((aim_initial_pick (mkRat 1 2) [(1, F.val 0), (2, F.val (-1)), (3, F.val 2)]
      { aiming_at := none, is_aiming := false } (by decide) rfl rfl).2
    [(2, F.val (-1)), (1, F.val 0), (3, F.val 2)] (by decide) (by decide)).2
    (by decide)

theorem zip_tail_any_nan {p : AimEnemy} (hnan : p.2.isNaN = true) :
    ∀ l : List AimEnemy, 2 ≤ l.length → p ∈ l →
      (l.zip l.tail).any (fun q => (F.pcmp q.1.2 q.2.2).isNone) = true := by
  intro l
  induction l with
  | nil =>
    intro h2 hp
    cases hp
  | cons a t ih =>
    intro h2 hp
    cases t with
    | nil =>
      rw [List.length_cons, List.length_nil] at h2
      exact absurd h2 (by decide)
    | cons b r =>
      rw [List.tail_cons, List.zip_cons_cons, List.any_cons]
      rcases List.mem_cons.mp hp with hpa | hpt
      · have ha : a.2 = F.nan := by
          rw [← hpa]
          exact F.eq_nan_of_isNaN hnan
        simp [ha, F.pcmp_nan_left]
      · cases r with
        | nil =>
          have hpb : p = b := List.mem_singleton.mp hpt
          have hb : b.2 = F.nan := by
            rw [← hpb]
            exact F.eq_nan_of_isNaN hnan
          simp [hb, F.pcmp_nan_right]
        | cons c r2 =>
          have hrec := ih (by rw [List.length_cons, List.length_cons]; omega) hpt
          rw [List.tail_cons] at hrec
          rw [hrec, Bool.or_true]

/-- C10 counterexample: a single live enemy with a NaN lateral position does
not make the cycler panic - the sort of a one-element slice performs no
comparison, so the unwrap is never reached and the enemy is simply selected. -/
theorem aim_nan_singleton_counterexample :
    player_aim (mkRat 1 2) [(1, F.nan)]
      { aiming_at := none, is_aiming := false } =
      some { aiming_at := some 1, is_aiming := true } := by decide

/-- C10 (amended): the aim-order sort compares lateral positions with an
unwrapped f32 partial comparison, so the cycler is total only when no live
enemy has a NaN lateral position: in that case every comparison between
entries is defined and the sort succeeds; and whenever at least two enemies
are live and some lateral position is NaN, the sort - and with it any trigger
of the cycler - panics.  (With a single live enemy no comparison is performed
and no panic occurs; see the counterexample.) -/
theorem aim_sort_nan_requirement (enemies : List AimEnemy) :
    ((∀ p ∈ enemies, p.2.isNaN = false) →
      (∀ p ∈ enemies, ∀ q ∈ enemies, (F.pcmp p.2 q.2).isSome = true) ∧
      aimSort enemies = some (List.insertionSort aimLe enemies)) ∧
    (2 ≤ enemies.length → (∃ p ∈ enemies, p.2.isNaN = true) →
      aimSort enemies = none ∧
      ∀ (a : ℚ) (g : AimState), deadZone ≤ fabs a → g.is_aiming = false →
        player_aim a enemies g = none) := by
  constructor
  · intro hno
    refine ⟨fun p hp q hq => F.pcmp_isSome_of_not_nan (hno p hp) (hno q hq), ?_⟩
    have hz : (enemies.zip enemies.tail).any
        (fun q => (F.pcmp q.1.2 q.2.2).isNone) = false := by
      rw [List.any_eq_false]
      intro x hx
      have h1 := (List.of_mem_zip hx).1
      have h2 := List.mem_of_mem_tail (List.of_mem_zip hx).2
      have hs := F.pcmp_isSome_of_not_nan (hno _ h1) (hno _ h2)
      cases hc : F.pcmp x.1.2 x.2.2
      · rw [hc] at hs
        cases hs
      · simp
    unfold aimSort
    rw [hz, if_neg Bool.false_ne_true]
  · rintro h2 ⟨p, hp, hnan⟩
    have hsortnone : aimSort enemies = none := by
      unfold aimSort
      rw [zip_tail_any_nan hnan enemies h2 hp,
        if_pos (rfl : (true : Bool) = true)]
    refine ⟨hsortnone, ?_⟩
    intro a g ht hl
    have hlp : ¬ (g.is_aiming = true) := by
      rw [hl]
      exact Bool.false_ne_true
    have hne : enemies ≠ [] := by
      intro h
      rw [h, List.length_nil] at h2
      exact absurd h2 (by decide)
    unfold player_aim
    rw [if_neg (not_lt.mpr ht), if_neg hlp]
    unfold player_aim_trigger
    rw [if_neg (by simp only [List.isEmpty_iff]; exact hne), hsortnone]

/-- Witness for aim_sort_nan_requirement: two finite lateral positions sort
fine; replacing one of them by NaN makes the trigger panic. -/
theorem aim_sort_nan_requirement_witness :
    aimSort [(1, F.val 0), (2, F.val 1)] =
      some (List.insertionSort aimLe [(1, F.val 0), (2, F.val 1)]) ∧
    player_aim (mkRat 1 2) [(1, F.val 0), (2, F.nan)]
      { aiming_at := none, is_aiming := false } = none := by
  constructor
  · exact ((aim_sort_nan_requirement [(1, F.val 0), (2, F.val 1)]).1
      (by decide)).2
  · exact ((aim_sort_nan_requirement [(1, F.val 0), (2, F.nan)]).2 (by decide)
      ⟨(2, F.nan), by decide, rfl⟩).2 (mkRat 1 2)
      { aiming_at := none, is_aiming := false } (by decide) rfl

theorem asI32_eq_self {n : ℤ} (h0 : -(2 ^ 31) ≤ n) (h1 : n < 2 ^ 31) :
    asI32 n = n := by
  unfold asI32
  have e31 : (2 : ℤ) ^ 31 = 2147483648 := by norm_num
  have e32 : (2 : ℤ) ^ 32 = 4294967296 := by norm_num
  rw [e31, e32]
  rw [e31] at h0 h1
  rw [Int.emod_eq_of_lt (by omega) (by omega)]
  omega

theorem next_index_left {i len : ℕ} (h1 : 0 < i) (h2 : i < len)
    (hlen : len < 2 ^ 31) :
    asUsize (asI32 (asI32 (i : ℤ) + -1)) % len = i - 1 := by
  have hn31 : (2 : ℕ) ^ 31 = 2147483648 := by norm_num
  rw [hn31] at hlen
  have hi : (i : ℤ) < 2147483648 := by exact_mod_cast h2.trans hlen
  have h0i : (0 : ℤ) ≤ (i : ℤ) := Int.ofNat_nonneg i
  have h1i : (1 : ℤ) ≤ (i : ℤ) := by exact_mod_cast h1
  have hA : asI32 (i : ℤ) = (i : ℤ) :=
    asI32_eq_self (by norm_num; omega) (by norm_num; omega)
  rw [hA, asI32_eq_self (by norm_num; omega) (by norm_num; omega)]
  unfold asUsize
  have e64 : (2 : ℤ) ^ 64 = 18446744073709551616 := by norm_num
  rw [e64, Int.emod_eq_of_lt (by omega) (by omega)]
  have ht : ((i : ℤ) + -1).toNat = i - 1 := by omega
  rw [ht, Nat.mod_eq_of_lt (by omega)]

theorem next_index_right {i len : ℕ} (h2 : i + 1 < len)
    (hlen : len < 2 ^ 31) :
    asUsize (asI32 (asI32 (i : ℤ) + 1)) % len = i + 1 := by
  have hn31 : (2 : ℕ) ^ 31 = 2147483648 := by norm_num
  rw [hn31] at hlen
  have hi : (i : ℤ) + 1 < 2147483648 := by exact_mod_cast h2.trans hlen
  have h0i : (0 : ℤ) ≤ (i : ℤ) := Int.ofNat_nonneg i
  have hA : asI32 (i : ℤ) = (i : ℤ) :=
    asI32_eq_self (by norm_num; omega) (by norm_num; omega)
  rw [hA, asI32_eq_self (by norm_num; omega) (by norm_num; omega)]
  unfold asUsize
  have e64 : (2 : ℤ) ^ 64 = 18446744073709551616 := by norm_num
  rw [e64, Int.emod_eq_of_lt (by omega) (by omega)]
  have ht : ((i : ℤ) + 1).toNat = i + 1 := by omega
  rw [ht, Nat.mod_eq_of_lt (by omega)]

/-- C1: cycling with a current target.  On a trigger with aiming_at = some e,
where the aim order sorts successfully and e sits at index i of the sorted
order: deflection left at index 0 and deflection right at the last index leave
aiming_at unchanged (clamp, no wrap); otherwise the new target is the enemy at
index i - 1 (left) or i + 1 (right) of the sorted order.  (The hypothesis
bounding the length by 2^31 reflects the i32 index cast of line 360, exact in
that range.) -/
theorem aim_cycle_step (a : ℚ) (enemies : List AimEnemy) (g : AimState)
    (e : ℕ) (ordered : List AimEnemy) (i : ℕ)
    (ht : deadZone ≤ fabs a) (hl : g.is_aiming = false)
    (haim : g.aiming_at = some e)
    (hsort : aimSort enemies = some ordered)
    (hlen : ordered.length < 2 ^ 31)
    (hfind : ordered.findIdx? (fun p => p.1 == e) = some i) :
    (a < 0 → i = 0 →
      player_aim a enemies g =
        some { aiming_at := some e, is_aiming := true }) ∧
    (a < 0 → 0 < i → ∃ hi : i - 1 < ordered.length,
      player_aim a enemies g =
        some { aiming_at := some (ordered.get ⟨i - 1, hi⟩).1,
               is_aiming := true }) ∧
    (0 < a → i = ordered.length - 1 →
      player_aim a enemies g =
        some { aiming_at := some e, is_aiming := true }) ∧
    (0 < a → i < ordered.length - 1 → ∃ hi : i + 1 < ordered.length,
      player_aim a enemies g =
        some { aiming_at := some (ordered.get ⟨i + 1, hi⟩).1,
               is_aiming := true }) := by
  have hlp : ¬ (g.is_aiming = true) := by
    rw [hl]
    exact Bool.false_ne_true
  have hilen : i < ordered.length :=
    (List.findIdx?_eq_some_iff_findIdx_eq.mp hfind).1
  have hne : enemies ≠ [] := by
    intro h
    subst h
    have hord : ordered = [] := by
      have := aimSort_eq_insertionSort hsort
      simpa using this
    rw [hord] at hfind
    cases hfind
  refine ⟨?_, ?_, ?_, ?_⟩
  · intro hneg hi0
    subst hi0
    unfold player_aim
    rw [if_neg (not_lt.mpr ht), if_neg hlp, if_neg (asymm hneg)]
    unfold player_aim_trigger
    rw [if_neg (by simp only [List.isEmpty_iff]; exact hne), hsort]
    dsimp only
    rw [haim]
    dsimp only
    rw [hfind]
    dsimp only
    rw [if_pos (decide_eq_true (Eq.refl (0 : ℕ)))]
  · intro hneg hipos
    refine ⟨by omega, ?_⟩
    unfold player_aim
    rw [if_neg (not_lt.mpr ht), if_neg hlp, if_neg (asymm hneg)]
    unfold player_aim_trigger
    rw [if_neg (by simp only [List.isEmpty_iff]; exact hne), hsort]
    dsimp only
    rw [haim]
    dsimp only
    rw [hfind]
    dsimp only
    rw [if_neg (by simp [hipos.ne'])]
    rw [next_index_left hipos hilen hlen,
      List.get?_eq_get (show i - 1 < ordered.length by omega)]
  · intro hpos hiend
    subst hiend
    unfold player_aim
    rw [if_neg (not_lt.mpr ht), if_neg hlp, if_pos hpos]
    unfold player_aim_trigger
    rw [if_neg (by simp only [List.isEmpty_iff]; exact hne), hsort]
    dsimp only
    rw [haim]
    dsimp only
    rw [hfind]
    dsimp only
    rw [if_pos (decide_eq_true (Eq.refl (ordered.length - 1)))]
  · intro hpos hilt
    refine ⟨by omega, ?_⟩
    unfold player_aim
    rw [if_neg (not_lt.mpr ht), if_neg hlp, if_pos hpos]
    unfold player_aim_trigger
    rw [if_neg (by simp only [List.isEmpty_iff]; exact hne), hsort]
    dsimp only
    rw [haim]
    dsimp only
    rw [hfind]
    dsimp only
    rw [if_neg (by simp [Nat.ne_of_lt hilt])]
    rw [next_index_right (show i + 1 < ordered.length by omega) hlen,
      List.get?_eq_get (show i + 1 < ordered.length by omega)]

/-- Witness for aim_cycle_step: Scenario B - three enemies at lateral
positions -1, 0 and 2, currently aiming at the middle one (id 1 at x = 0),
stick deflected right: the target becomes the enemy at x = 2 (id 3). -/
theorem aim_cycle_step_witness :
    player_aim (mkRat 1 2) [(1, F.val 0), (2, F.val (-1)), (3, F.val 2)]
      { aiming_at := some 1, is_aiming := false } =
      some { aiming_at := some 3, is_aiming := true } := by
  obtain ⟨hi, heq⟩ := (aim_cycle_step (mkRat 1 2)
      [(1, F.val 0), (2, F.val (-1)), (3, F.val 2)]
      { aiming_at := some 1, is_aiming := false } 1
      [(2, F.val (-1)), (1, F.val 0), (3, F.val 2)] 1
      (by decide) rfl rfl (by decide) (by decide) (by decide)).2.2.2
      (by decide) (by decide)
  exact heq

theorem hit_inner_nil (p : ℕ × Vec3) (acc : Option ℕ × List ℕ × List ℕ) :
    hit_inner p [] acc = acc := rfl

theorem hit_inner_cons (p e : ℕ × Vec3) (es : List (ℕ × Vec3))
    (acc : Option ℕ × List ℕ × List ℕ) :
    hit_inner p (e :: es) acc =
      hit_inner p es
        (if hit p.2 e.2 then
          ((if acc.1 = some e.1 then none else acc.1),
            acc.2.1 ++ [p.1], acc.2.2 ++ [e.1])
        else acc) := by
  unfold hit_inner
  rw [List.foldl_cons]

theorem hit_inner_fst (p : ℕ × Vec3) (es : List (ℕ × Vec3))
    (acc : Option ℕ × List ℕ × List ℕ) :
    (hit_inner p es acc).1 =
      if ∃ e ∈ es, hit p.2 e.2 = true ∧ acc.1 = some e.1 then none
      else acc.1 := by
  induction es generalizing acc with
  | nil => simp [hit_inner_nil]
  | cons e es ih =>
    rw [hit_inner_cons, ih]
    by_cases hh : hit p.2 e.2 = true
    · rw [if_pos hh]
      by_cases hm : acc.1 = some e.1
      · rw [if_pos hm]
        rw [if_neg (by simp), if_pos ⟨e, List.mem_cons_self e es, hh, hm⟩]
      · rw [if_neg hm]
        by_cases hex : ∃ e2 ∈ es, hit p.2 e2.2 = true ∧ acc.1 = some e2.1
        · obtain ⟨y, hy, hy2⟩ := hex
          rw [if_pos ⟨y, hy, hy2⟩, if_pos ⟨y, List.mem_cons_of_mem e hy, hy2⟩]
        · rw [if_neg hex, if_neg ?_]
          rintro ⟨y, hy, hyh, hym⟩
          rcases List.mem_cons.mp hy with rfl | hy2
          · exact hm hym
          · exact hex ⟨y, hy2, hyh, hym⟩
    · rw [if_neg hh]
      by_cases hex : ∃ e2 ∈ es, hit p.2 e2.2 = true ∧ acc.1 = some e2.1
      · obtain ⟨y, hy, hy2⟩ := hex
        rw [if_pos ⟨y, hy, hy2⟩, if_pos ⟨y, List.mem_cons_of_mem e hy, hy2⟩]
      · rw [if_neg hex, if_neg ?_]
        rintro ⟨y, hy, hyh, hym⟩
        rcases List.mem_cons.mp hy with rfl | hy2
        · exact hh hyh
        · exact hex ⟨y, hy2, hyh, hym⟩

theorem hit_inner_enemies (p : ℕ × Vec3) (es : List (ℕ × Vec3))
    (acc : Option ℕ × List ℕ × List ℕ) (x : ℕ) :
    x ∈ (hit_inner p es acc).2.2 ↔
      x ∈ acc.2.2 ∨ ∃ e ∈ es, e.1 = x ∧ hit p.2 e.2 = true := by
  induction es generalizing acc with
  | nil => simp [hit_inner_nil]
  | cons e es ih =>
    rw [hit_inner_cons, ih]
    by_cases hh : hit p.2 e.2 = true
    · rw [if_pos hh]
      dsimp only
      rw [List.mem_append, List.mem_singleton]
      constructor
      · rintro ((hacc | hxe) | ⟨y, hy, hy1, hy2⟩)
        · exact Or.inl hacc
        · exact Or.inr ⟨e, List.mem_cons_self e es, hxe.symm, hh⟩
        · exact Or.inr ⟨y, List.mem_cons_of_mem e hy, hy1, hy2⟩
      · rintro (hacc | ⟨y, hy, hy1, hy2⟩)
        · exact Or.inl (Or.inl hacc)
        · rcases List.mem_cons.mp hy with rfl | hy3
          · exact Or.inl (Or.inr hy1.symm)
          · exact Or.inr ⟨y, hy3, hy1, hy2⟩
    · rw [if_neg hh]
      constructor
      · rintro (hacc | ⟨y, hy, hy1, hy2⟩)
        · exact Or.inl hacc
        · exact Or.inr ⟨y, List.mem_cons_of_mem e hy, hy1, hy2⟩
      · rintro (hacc | ⟨y, hy, hy1, hy2⟩)
        · exact Or.inl hacc
        · rcases List.mem_cons.mp hy with rfl | hy3
          · exact absurd hy2 hh
          · exact Or.inr ⟨y, hy3, hy1, hy2⟩

theorem hit_inner_projectiles (p : ℕ × Vec3) (es : List (ℕ × Vec3))
    (acc : Option ℕ × List ℕ × List ℕ) (x : ℕ) :
    x ∈ (hit_inner p es acc).2.1 ↔
      x ∈ acc.2.1 ∨ (p.1 = x ∧ ∃ e ∈ es, hit p.2 e.2 = true) := by
  induction es generalizing acc with
  | nil => simp [hit_inner_nil]
  | cons e es ih =>
    rw [hit_inner_cons, ih]
    by_cases hh : hit p.2 e.2 = true
    · rw [if_pos hh]
      dsimp only
      rw [List.mem_append, List.mem_singleton]
      constructor
      · rintro ((hacc | hxp) | ⟨hp1, y, hy, hy2⟩)
        · exact Or.inl hacc
        · exact Or.inr ⟨hxp.symm, e, List.mem_cons_self e es, hh⟩
        · exact Or.inr ⟨hp1, y, List.mem_cons_of_mem e hy, hy2⟩
      · rintro (hacc | ⟨hp1, y, hy, hy2⟩)
        · exact Or.inl (Or.inl hacc)
        · exact Or.inl (Or.inr hp1.symm)
    · rw [if_neg hh]
      constructor
      · rintro (hacc | ⟨hp1, y, hy, hy2⟩)
        · exact Or.inl hacc
        · exact Or.inr ⟨hp1, y, List.mem_cons_of_mem e hy, hy2⟩
      · rintro (hacc | ⟨hp1, y, hy, hy2⟩)
        · exact Or.inl hacc
        · rcases List.mem_cons.mp hy with rfl | hy3
          · exact absurd hy2 hh
          · exact Or.inr ⟨hp1, y, hy3, hy2⟩

theorem projectile_hit_foldl_fst (es : List (ℕ × Vec3)) :
    ∀ (ps : List (ℕ × Vec3)) (acc : Option ℕ × List ℕ × List ℕ),
      (ps.foldl (fun acc p => hit_inner p es acc) acc).1 =
        if ∃ p ∈ ps, ∃ e ∈ es, hit p.2 e.2 = true ∧ acc.1 = some e.1 then none
        else acc.1 := by
  intro ps
  induction ps with
  | nil =>
    intro acc
    simp
  | cons p ps ih =>
    intro acc
    rw [List.foldl_cons, ih, hit_inner_fst]
    by_cases hc : ∃ e ∈ es, hit p.2 e.2 = true ∧ acc.1 = some e.1
    · rw [if_pos hc]
      obtain ⟨y, hy, hy2⟩ := hc
      rw [if_neg (by simp), if_pos ⟨p, List.mem_cons_self p ps, y, hy, hy2⟩]
    · rw [if_neg hc]
      by_cases hex : ∃ q ∈ ps, ∃ e ∈ es, hit q.2 e.2 = true ∧ acc.1 = some e.1
      · obtain ⟨q, hq, hq2⟩ := hex
        rw [if_pos ⟨q, hq, hq2⟩, if_pos ⟨q, List.mem_cons_of_mem p hq, hq2⟩]
      · rw [if_neg hex, if_neg ?_]
        rintro ⟨q, hq, hq2⟩
        rcases List.mem_cons.mp hq with rfl | hq3
        · exact hc hq2
        · exact hex ⟨q, hq3, hq2⟩

theorem projectile_hit_foldl_enemies (es : List (ℕ × Vec3)) (x : ℕ) :
    ∀ (ps : List (ℕ × Vec3)) (acc : Option ℕ × List ℕ × List ℕ),
      (x ∈ (ps.foldl (fun acc p => hit_inner p es acc) acc).2.2 ↔
        x ∈ acc.2.2 ∨ ∃ p ∈ ps, ∃ e ∈ es, e.1 = x ∧ hit p.2 e.2 = true) := by
  intro ps
  induction ps with
  | nil =>
    intro acc
    simp
  | cons p ps ih =>
    intro acc
    rw [List.foldl_cons, ih]
    constructor
    · rintro (hin | ⟨q, hq, hq2⟩)
      · rcases (hit_inner_enemies p es acc x).mp hin with hacc | ⟨y, hy, hy1, hy2⟩
        · exact Or.inl hacc
        · exact Or.inr ⟨p, List.mem_cons_self p ps, y, hy, hy1, hy2⟩
      · exact Or.inr ⟨q, List.mem_cons_of_mem p hq, hq2⟩
    · rintro (hacc | ⟨q, hq, y, hy, hy1, hy2⟩)
      · exact Or.inl ((hit_inner_enemies p es acc x).mpr (Or.inl hacc))
      · rcases List.mem_cons.mp hq with rfl | hq3
        · exact Or.inl
            ((hit_inner_enemies q es acc x).mpr (Or.inr ⟨y, hy, hy1, hy2⟩))
        · exact Or.inr ⟨q, hq3, y, hy, hy1, hy2⟩

theorem projectile_hit_foldl_projectiles (es : List (ℕ × Vec3)) (x : ℕ) :
    ∀ (ps : List (ℕ × Vec3)) (acc : Option ℕ × List ℕ × List ℕ),
      (x ∈ (ps.foldl (fun acc p => hit_inner p es acc) acc).2.1 ↔
        x ∈ acc.2.1 ∨ ∃ p ∈ ps, p.1 = x ∧ ∃ e ∈ es, hit p.2 e.2 = true) := by
  intro ps
  induction ps with
  | nil =>
    intro acc
    simp
  | cons p ps ih =>
    intro acc
    rw [List.foldl_cons, ih]
    constructor
    · rintro (hin | ⟨q, hq, hq2⟩)
      · rcases (hit_inner_projectiles p es acc x).mp hin with hacc | ⟨h1, h2⟩
        · exact Or.inl hacc
        · exact Or.inr ⟨p, List.mem_cons_self p ps, h1, h2⟩
      · exact Or.inr ⟨q, List.mem_cons_of_mem p hq, hq2⟩
    · rintro (hacc | ⟨q, hq, hq1, hq2⟩)
      · exact Or.inl ((hit_inner_projectiles p es acc x).mpr (Or.inl hacc))
      · rcases List.mem_cons.mp hq with rfl | hq3
        · exact Or.inl
            ((hit_inner_projectiles q es acc x).mpr (Or.inr ⟨hq1, hq2⟩))
        · exact Or.inr ⟨q, hq3, hq1, hq2⟩

theorem hit_iff_dist_le (p e : Vec3) :
    hit p e = true ↔
      Real.sqrt (((Vec3.sub p e).normSq : ℚ) : ℝ) ≤ ((HIT_THRESHOLD : ℚ) : ℝ) := by
  unfold hit
  rw [decide_eq_true_eq, Real.sqrt_le_iff]
  have h0 : (0 : ℝ) ≤ ((HIT_THRESHOLD : ℚ) : ℝ) :=
    Rat.cast_nonneg.mpr (by decide)
  constructor
  · intro h
    refine ⟨h0, ?_⟩
    rw [pow_two]
    exact_mod_cast h
  · rintro ⟨h1, h2⟩
    rw [pow_two] at h2
    exact_mod_cast h2

/-- C5: the Collision Resolver processes every projectile/enemy pair of the
tick's snapshot with no early exit: an enemy receives a despawn command
exactly when some live projectile is within Euclidean distance HIT_THRESHOLD
of it, and a projectile receives a despawn command exactly when some live
enemy is within Euclidean distance HIT_THRESHOLD of it.  Both
characterizations are independent of the iteration order of the two loops. -/
theorem collision_all_pairs (aiming : Option ℕ) (ps es : List (ℕ × Vec3)) :
    (∀ x, x ∈ (projectile_hit aiming ps es).2.2 ↔
      ∃ p ∈ ps, ∃ e ∈ es, e.1 = x ∧
        Real.sqrt (((Vec3.sub p.2 e.2).normSq : ℚ) : ℝ) ≤
          ((HIT_THRESHOLD : ℚ) : ℝ)) ∧
    (∀ x, x ∈ (projectile_hit aiming ps es).2.1 ↔
      ∃ p ∈ ps, p.1 = x ∧ ∃ e ∈ es,
        Real.sqrt (((Vec3.sub p.2 e.2).normSq : ℚ) : ℝ) ≤
          ((HIT_THRESHOLD : ℚ) : ℝ)) := by
  constructor
  · intro x
    have h := projectile_hit_foldl_enemies es x ps (aiming, [], [])
    simp only [List.not_mem_nil, false_or, hit_iff_dist_le] at h
    exact h
  · intro x
    have h := projectile_hit_foldl_projectiles es x ps (aiming, [], [])
    simp only [List.not_mem_nil, false_or, hit_iff_dist_le] at h
    exact h

/-- C4: target clears on death.  If some live projectile is within the hit
threshold of an enemy whose id equals the current aiming_at, the resolver
leaves aiming_at = none; and in general the aiming_at left by the resolver,
when present, is never an enemy that received a despawn command in this
tick. -/
theorem collision_clears_target (ps es : List (ℕ × Vec3)) (a : ℕ)
    (hhit : ∃ p ∈ ps, ∃ e ∈ es, hit p.2 e.2 = true ∧ e.1 = a) :
    (projectile_hit (some a) ps es).1 = none ∧
    ∀ (a0 : Option ℕ) (x : ℕ), (projectile_hit a0 ps es).1 = some x →
      x ∉ (projectile_hit a0 ps es).2.2 := by
  constructor
  · have h := projectile_hit_foldl_fst es ps (some a, [], [])
    rw [if_pos ?_] at h
    · exact h
    · obtain ⟨p, hp, e, he, h1, h2⟩ := hhit
      exact ⟨p, hp, e, he, h1, by rw [h2]⟩
  · intro a0 x hsome hin
    have hsome2 :
        (ps.foldl (fun acc p => hit_inner p es acc) (a0, [], [])).1 = some x :=
      hsome
    rw [projectile_hit_foldl_fst] at hsome2
    have hin2 : x ∈ (ps.foldl (fun acc p => hit_inner p es acc)
        (a0, [], [])).2.2 := hin
    have he2 := (projectile_hit_foldl_enemies es x ps (a0, [], [])).mp hin2
    simp only [List.not_mem_nil, false_or] at he2
    obtain ⟨p, hp, e, hme, h1, h2⟩ := he2
    by_cases hc : ∃ p ∈ ps, ∃ e ∈ es, hit p.2 e.2 = true ∧
        ((a0, ([] : List ℕ), ([] : List ℕ)) :
          Option ℕ × List ℕ × List ℕ).1 = some e.1
    · rw [if_pos hc] at hsome2
      cases hsome2
    · rw [if_neg hc] at hsome2
      exact hc ⟨p, hp, e, hme, h2, by rw [hsome2, h1]⟩

/-- Witness for collision_clears_target: Scenario D - a projectile at
(0, 0, 5) and the aimed-at enemy (id 5) at (0, 0, 4.95): the distance is
0.05, within the threshold 0.1, and the resolver clears the target. -/
theorem collision_clears_target_witness :
    (projectile_hit (some 5) [(10, (⟨0, 0, 5⟩ : Vec3))]
      [(5, (⟨0, 0, mkRat 99 20⟩ : Vec3))]).1 = none :=
  (collision_clears_target [(10, (⟨0, 0, 5⟩ : Vec3))]
    [(5, (⟨0, 0, mkRat 99 20⟩ : Vec3))] 5
    ⟨(10, ⟨0, 0, 5⟩), by decide, (5, ⟨0, 0, mkRat 99 20⟩), by decide,
      by rw [hit, decide_eq_true_eq]
         norm_num [Vec3.sub, Vec3.normSq, HIT_THRESHOLD, Rat.mkRat_eq_div],
      rfl⟩).1

/-- C6: the zero-length normalization is NOT guarded in the source.  With an
enemy exactly at the player position, enemy_movement normalizes the zero
vector and writes a NaN-contaminated position into the transform (modelled
none); with the firing target exactly at the weapon origin, weapon_fire
stores a NaN heading.  This refutes the claim that the degenerate case is
explicitly guarded so that no NaN is ever written. -/
theorem normalize_unguarded_nan :
    enemy_movement_step (⟨0, 0, 0⟩ : Vec3R) (⟨0, 0, 0⟩ : Vec3R) = none ∧
    weapon_fire_heading (⟨1, 2, 3⟩ : Vec3R) (⟨1, 2, 3⟩ : Vec3R) = none := by
  constructor
  · have hz : normalizeV (Vec3R.sub (⟨0, 0, 0⟩ : Vec3R) (⟨0, 0, 0⟩ : Vec3R)) =
        none := by
      unfold normalizeV
      rw [if_pos ⟨by simp [Vec3R.sub], by simp [Vec3R.sub], by simp [Vec3R.sub]⟩]
    unfold enemy_movement_step
    rw [hz]
    rfl
  · have hz : normalizeV (Vec3R.sub (⟨1, 2, 3⟩ : Vec3R) (⟨1, 2, 3⟩ : Vec3R)) =
        none := by
      unfold normalizeV
      rw [if_pos ⟨by simp [Vec3R.sub], by simp [Vec3R.sub], by simp [Vec3R.sub]⟩]
    unfold weapon_fire_heading
    rw [hz]

/-- C7: evaluation of setup_models from the default Game resource with the
fresh-entity counter at 4.  Exactly one Player marker is inserted and it is
on the final player handle (6); the weapon handle (4) is the child attached
to the player - but the single Weapon marker went to entity 0, the stale
pre-setup sentinel game.player (Entity::from_bits(0)), not to the weapon
entity: the marker receiver and the weapon handle do not coincide, refuting
the claimed singleton Weapon role on the weapon entity. -/
theorem setup_models_weapon_marker_bug :
    setupRun.1.player = 6 ∧ setupRun.1.spud_gun = 4 ∧
    setupRun.2.playerMarked = [6] ∧ setupRun.2.children = [(6, 4)] ∧
    setupRun.2.weaponMarked = [0] ∧ gameDefault.player = 0 ∧
    setupRun.1.spud_gun ≠ gameDefault.player := by decide

/-- C8: spawner timing.  Each tick the spawner advances the repeating
3-second timer by the frame delta; while the accumulated time has not reached
the period nothing is spawned and the elapsed time accumulates; on the tick
where the period is reached exactly one enemy is spawned, at lateral position
rand * 4 - 2 (within [-2, 2] for rand in [0, 1)) and depth 10 units ahead of
the camera, and the timer wraps for the next period (elapsed strictly below
the period again). -/
theorem spawn_enemy_timing (timer : RTimer) (delta rand camera_z : ℚ)
    (hdur : timer.duration = enemySpawnPeriod) (hel : 0 ≤ timer.elapsed)
    (hd : 0 ≤ delta) (hr0 : 0 ≤ rand) (hr1 : rand < 1) :
    (timer.elapsed + delta < enemySpawnPeriod →
      spawn_enemy timer delta rand camera_z =
        ({ timer with elapsed := timer.elapsed + delta }, [])) ∧
    (enemySpawnPeriod ≤ timer.elapsed + delta →
      ∃ t1 : RTimer,
        spawn_enemy timer delta rand camera_z =
          (t1, [{ x := rand * 4 - 2, y := 0, z := camera_z - 10 }]) ∧
        0 ≤ t1.elapsed ∧ t1.elapsed < enemySpawnPeriod ∧
        t1.duration = enemySpawnPeriod ∧
        -2 ≤ rand * 4 - 2 ∧ rand * 4 - 2 ≤ 2) := by
  constructor
  · intro h
    have h2 : ¬ (timer.duration ≤ timer.elapsed + delta) := by
      rw [hdur]
      exact not_le.mpr h
    unfold spawn_enemy RTimer.tick
    dsimp only
    rw [if_neg h2]
    rfl
  · intro h
    have h2 : timer.duration ≤ timer.elapsed + delta := by
      rw [hdur]
      exact h
    refine ⟨⟨timer.elapsed + delta -
        timer.duration * ⌊(timer.elapsed + delta) / timer.duration⌋,
        timer.duration⟩,
      ?_, ?_, ?_, hdur, by linarith, by linarith⟩
    · unfold spawn_enemy RTimer.tick
      dsimp only
      rw [if_pos h2]
      rfl
    · show (0 : ℚ) ≤ timer.elapsed + delta -
        timer.duration * ⌊(timer.elapsed + delta) / timer.duration⌋
      rw [hdur]
      have h1 : ((⌊(timer.elapsed + delta) / enemySpawnPeriod⌋ : ℤ) : ℚ) ≤
          (timer.elapsed + delta) / enemySpawnPeriod := Int.floor_le _
      have h3 : enemySpawnPeriod *
          ((timer.elapsed + delta) / enemySpawnPeriod) =
          timer.elapsed + delta := by
        unfold enemySpawnPeriod
        ring
      have h4 : (0 : ℚ) < enemySpawnPeriod := by
        unfold enemySpawnPeriod
        norm_num
      have h5 := mul_le_mul_of_nonneg_left h1 h4.le
      rw [h3] at h5
      linarith
    · show timer.elapsed + delta -
        timer.duration * ⌊(timer.elapsed + delta) / timer.duration⌋ <
        enemySpawnPeriod
      rw [hdur]
      have h1 : (timer.elapsed + delta) / enemySpawnPeriod <
          (⌊(timer.elapsed + delta) / enemySpawnPeriod⌋ : ℚ) + 1 :=
        Int.lt_floor_add_one _
      have h3 : enemySpawnPeriod *
          ((timer.elapsed + delta) / enemySpawnPeriod) =
          timer.elapsed + delta := by
        unfold enemySpawnPeriod
        ring
      have h4 : (0 : ℚ) < enemySpawnPeriod := by
        unfold enemySpawnPeriod
        norm_num
      have h5 := mul_lt_mul_of_pos_left h1 h4
      rw [h3, mul_add, mul_one] at h5
      linarith

/-- Witness for spawn_enemy_timing: Scenario E - a fresh 3-second timer
ticked by 2.9 seconds spawns nothing; ticked by a further 0.1 seconds it
reaches the 3-second mark, spawns exactly one enemy and wraps. -/
theorem spawn_enemy_timing_witness :
    spawn_enemy { elapsed := 0, duration := 3 } (mkRat 29 10) (mkRat 1 2) 0 =
      ({ elapsed := 0 + mkRat 29 10, duration := 3 }, []) ∧
    ∃ t1 : RTimer,
      spawn_enemy { elapsed := mkRat 29 10, duration := 3 } (mkRat 1 10)
          (mkRat 1 2) 0 =
        (t1, [{ x := mkRat 1 2 * 4 - 2, y := 0, z := 0 - 10 }]) ∧
      0 ≤ t1.elapsed ∧ t1.elapsed < enemySpawnPeriod ∧
      t1.duration = enemySpawnPeriod ∧
      -2 ≤ mkRat 1 2 * 4 - 2 ∧ mkRat 1 2 * 4 - 2 ≤ 2 := by
  constructor
  · exact (spawn_enemy_timing { elapsed := 0, duration := 3 } (mkRat 29 10)
      (mkRat 1 2) 0 rfl (by decide) (by decide) (by decide) (by decide)).1
      (by norm_num [Rat.mkRat_eq_div, enemySpawnPeriod])
  · exact (spawn_enemy_timing { elapsed := mkRat 29 10, duration := 3 }
      (mkRat 1 10) (mkRat 1 2) 0 rfl (by decide) (by decide) (by decide)
      (by decide)).2 (by norm_num [Rat.mkRat_eq_div, enemySpawnPeriod])

end VegFuneral
